import Mathlib

/-!
Verification of the native function bridge of `hlua` (file
`src/hlua/src/functions_write.rs`): the mechanism that wraps a host (Rust)
closure as a callable inside an embedded Lua VM.

The embedding models:
* Lua stack values (`LuaValue`) and the VM stack as a `List LuaValue`
  (head = bottom-most argument, i.e. stack position `-argc`);
* the trampoline `wrapper` (source lines 344-385) as a function from the
  captured closure state and the argument stack to a new state and a
  `CallOutcome` (normal return with pushed values / `lua_error` unwind /
  `panic!`);
* the registration push `Function::push_to_lua` (source lines 226-261) as a
  stack transformer recording allocations, upvalue count, finalizer
  attachment and the `PushGuard` size;
* the `Push` impl for `Result` inside a callback (source lines 316-334).

The argument/result marshaling contract (`LuaRead` / `Push` for scalars and
tuples) is an external collaborator whose code is not part of the bridge
source; where needed it is modelled from the spec and marked as such.
-/

namespace Hlua

/-- A dynamically-typed value on the Lua VM stack. -/
inductive LuaValue where
  | nil
  | num (n : Int)
  | str (s : String)
  | boolean (b : Bool)
deriving Repr, DecidableEq

/-- Outcome of one trampoline invocation, as seen by the VM.

`returned vals` is a normal return: `vals` are the pushed return values, and
the trampoline reports `vals.length` as its number of return values (the
`nb` returned by the source `wrapper`). `thrown msg` is the `lua_error`
path: the VM unwinds with the message `msg` on the stack and the trampoline
never returns normally. `fatal` is the `panic!()` branch taken when
encoding the return value fails. -/
inductive CallOutcome where
  | returned (vals : List LuaValue)
  | thrown (msg : String)
  | fatal
deriving Repr, DecidableEq

/-- The trampoline (source `wrapper`, lines 346-385), translated step by
step.  Type parameters: `Z` is the captured closure state, `P` the decoded
parameter tuple, `R` the declared return type.  `decode` is the
`LuaRead::lua_read_at_position` call at stack position `-argc` (here: on
the whole argument list), `callMut` is `FunctionExt::call_mut` with the
captured state threaded explicitly (Rust `FnMut` mutation), and `encode`
is `R`'s `Push` into the callback context, returning the pushed slots or
`none` on a push error.

Source control flow: decode failure pushes the fixed message and calls
`lua_error` (the closure is never invoked); otherwise the closure runs,
then its result is pushed, a push error hitting `panic!()`. -/
def wrapper {Z P R : Type} (decode : List LuaValue → Option P)
    (callMut : Z → P → Z × R) (encode : R → Option (List LuaValue))
    (z : Z) (args : List LuaValue) : Z × CallOutcome :=
  match decode args with
  | none => (z, .thrown "wrong parameter types for callback function")
  | some p =>
    let zr := callMut z p
    match encode zr.2 with
    | none => (zr.1, .fatal)
    | some vals => (zr.1, .returned vals)

/-- Modelled from the spec: the marshaling contract's decode of one integer
stack slot (`LuaRead for i32`, an external collaborator not in the bridge
source). A number slot decodes to its value; any other slot fails. -/
def readInt : LuaValue → Option Int
  | .num n => some n
  | _ => none

/-- Modelled from the spec: decode of an argument tuple of arity `k` whose
components are all integers (the external tuple `LuaRead`): succeeds iff
exactly `k` slots are present and every slot decodes as an integer, reading
the slots bottom-to-top (declaration order). -/
def decodeInts : Nat → List LuaValue → Option (List Int)
  | 0, [] => some []
  | 0, _ :: _ => none
  | _ + 1, [] => none
  | k + 1, v :: rest =>
    match readInt v, decodeInts k rest with
    | some n, some ns => some (n :: ns)
    | _, _ => none

/-- Modelled from the spec: decode of the two-integer argument tuple
`(i32, i32)` (external tuple `LuaRead`), used by the concrete `add`
scenario. -/
def decodeInt2 : List LuaValue → Option (Int × Int)
  | [a, b] =>
    match readInt a, readInt b with
    | some x, some y => some (x, y)
    | _, _ => none
  | _ => none

/-- Modelled from the spec: decode of the empty argument tuple `()`:
succeeds exactly on an empty argument stack. -/
def decodeUnit : List LuaValue → Option Unit
  | [] => some ()
  | _ :: _ => none

/-- Modelled from the spec: the marshaling contract's encode of one integer
(`Push for i32`), writing exactly one stack slot, infallibly. -/
def encodeInt (n : Int) : Option (List LuaValue) :=
  some [.num n]

/-- Modelled from the spec: encode of a tuple return value — the
components are pushed in declaration order, left to right, and the slot
counts add up (external tuple `Push`). Fails iff some component push
fails. -/
def pushTuple : List (Option (List LuaValue)) → Option (List LuaValue)
  | [] => some []
  | c :: cs => c.bind fun v => (pushTuple cs).map fun vs => v ++ vs

/-- Encode of a tuple each of whose `m` components occupies exactly one
stack slot: the single-slot case of `pushTuple`. -/
def pushTupleOfOnes (vs : List LuaValue) : Option (List LuaValue) :=
  pushTuple (vs.map fun v => some [v])

/-- Modelled from the spec: encode of the unit return value `()` (external
`Push for ()`): writes zero stack slots, infallibly. -/
def pushUnit (_ : Unit) : Option (List LuaValue) :=
  some []

/-- The integer a trampoline invocation hands back to the VM as its number
of return values (`nb as libc::c_int` in the source): the number of stack
slots the return-value push occupied. Undefined on the unwinding and fatal
outcomes, which never return normally. -/
def reportedReturnCount : CallOutcome → Option Nat
  | .returned vals => some vals.length
  | _ => none

/-- The `Result` type of Rust, as used by the bridge for closure-reported
failures. -/
inductive RsResult (T E : Type) where
  | Ok (val : T)
  | Err (err : E)
deriving Repr, DecidableEq

/-- The `Push<&mut InsideCallback> for Result<T, E>` impl (source lines
316-334): `Ok(val)` pushes the payload recursively; `Err(val)` pushes the
tuple `(LuaNil, val.to_string())` via the infallible tuple push — a nil
slot followed by the display form of the error, a normal two-value
return. `display` is `E`'s `Display` impl. -/
def pushResultToLua {T E : Type} (pushOk : T → Option (List LuaValue))
    (display : E → String) : RsResult T E → Option (List LuaValue)
  | .Ok val => pushOk val
  | .Err err => pushTuple [some [.nil], some [.str (display err)]]

/-- A value on the Lua stack as seen by the registration push.  `userdata`
records the size of the VM-allocated captured-state block and whether a
metatable carrying a `"__gc"` finalizer is attached to it; `cclosure`
records the native closure's upvalue count and its optional upvalue;
`foreign` stands for any value already on the stack before the push, with
its finalizer-metatable flag. -/
inductive StackVal where
  | userdata (size : Nat) (finalizer : Bool)
  | cclosure (nUpvalues : Nat) (upvalue : Option (Nat × Bool))
  | foreign (finalizer : Bool)
deriving Repr, DecidableEq

/-- `lua_setmetatable(raw_lua_ptr, -2)` after the `"__gc"` table has been
built and while the table sits on top: it attaches the finalizer metatable
to whatever value is at stack index `-2`, i.e. the top of the stack as it
was before the metatable block ran. -/
def setFinalizerOnTop : StackVal → StackVal
  | .userdata size _ => .userdata size true
  | .cclosure n u => .cclosure n u
  | .foreign _ => .foreign true

/-- Result of `Function::push_to_lua`: the new stack, the list of sizes of
captured-state blocks allocated with `lua_newuserdata`, the upvalue count
handed to `lua_pushcclosure`, and the reported `PushGuard` size. -/
structure PushResult where
  stack : List StackVal
  allocs : List Nat
  nUpvalues : Nat
  guard : Nat
deriving Repr, DecidableEq

/-- `Function::push_to_lua` (source lines 226-261), translated step by
step over the stack (list head = stack top).  `size` is
`mem::size_of::<Z>()`, `needsDrop` is `mem::needs_drop::<Z>()`.

* `has_data = size_of::<Z>() != 0`; if so, `lua_newuserdata` allocates a
  block of exactly `size` bytes (pushing it) and the closure state is
  written into it.
* If `needs_drop::<Z>()`, a fresh table gets `"__gc" =
  closure_destructor_wrapper::<Z>` and `lua_setmetatable(-2)` attaches it
  to the value at index `-2` — the userdata when one was pushed, otherwise
  whatever was on top of the stack before the push (`none` models the
  invalid-index access when that stack is empty).
* `lua_pushcclosure` consumes `has_data as c_int` upvalues and pushes the
  native closure; the returned `PushGuard` has `size: 1` unconditionally.

The `Err` type of this push is `Void` (uninhabited), modelled by Lean's
`Empty`: the push cannot fail with a push error. -/
def pushFunctionToLua (size : Nat) (needsDrop : Bool) (stack : List StackVal) :
    Option PushResult :=
  let hasData := size ≠ 0
  let allocs := if hasData then [size] else []
  let st1 := if hasData then .userdata size false :: stack else stack
  let st2 : Option (List StackVal) :=
    if needsDrop then
      match st1 with
      | [] => none
      | top :: rest => some (setFinalizerOnTop top :: rest)
    else some st1
  match st2 with
  | none => none
  | some st2 =>
    if hasData then
      match st2 with
      | [] => none
      | up :: rest =>
        let upval : Option (Nat × Bool) :=
          match up with
          | .userdata s fin => some (s, fin)
          | _ => none
        some ⟨.cclosure 1 upval :: rest, allocs, 1, 1⟩
    else
      some ⟨.cclosure 0 none :: st2, allocs, 0, 1⟩

/-- Where the trampoline obtains the captured-state address (source lines
360-363): for a zero-sized `T` it uses `NonNull::dangling()` — a fixed,
non-null sentinel, never dereferencing or even reading the upvalue slot —
and otherwise it reads `lua_touserdata(lua, lua_upvalueindex(1))`. -/
inductive DataSource where
  | sentinel
  | upvalueSlot (idx : Nat)
deriving Repr, DecidableEq

/-- The `match std::mem::size_of::<T>()` at trampoline entry. -/
def trampolineDataSource (size : Nat) : DataSource :=
  if size = 0 then .sentinel else .upvalueSlot 1

/-- The types usable as a closure return value, as far as push impls are
concerned. -/
inductive ValTy where
  | int
  | str
  | nil
  | unit
  | tuple (fst snd : ValTy)
  | result (ok : ValTy) (err : ValTy)

/-- The contexts a `Push` impl can target: any Lua context (`AsMutLua`,
e.g. an ordinary global-variable write), or the `&mut InsideCallback`
context that exists only for the dynamic extent of one trampoline
invocation (it is created at source line 366 and dropped when the
trampoline returns). -/
inductive PushCtx where
  | anyLua
  | insideCallback
deriving Repr, DecidableEq

/-- The closed world of `Push` impls relevant to return values.  Scalars,
nil, unit and tuples of pushable components are pushable in every context
(the external marshaling contract, modelled from the spec); `Result` has
exactly one impl, `Push<&mut InsideCallback> for Result<T, E>` (source
lines 316-334), so it is pushable only inside a callback. -/
inductive HasPushImpl : ValTy → PushCtx → Prop where
  | int (c : PushCtx) : HasPushImpl .int c
  | str (c : PushCtx) : HasPushImpl .str c
  | nil (c : PushCtx) : HasPushImpl .nil c
  | unit (c : PushCtx) : HasPushImpl .unit c
  | tuple {a b : ValTy} {c : PushCtx} :
      HasPushImpl a c → HasPushImpl b c → HasPushImpl (.tuple a b) c
  | result {t e : ValTy} :
      HasPushImpl t .insideCallback → HasPushImpl (.result t e) .insideCallback

/-- The model of `type Err = Void` in the `Push` impl of `Function`: the
push-error type is uninhabited, so the push cannot fail with a push
error. -/
abbrev FunctionPushErr := Empty

/-- `n` successive invocations of the registered closure
`function0(|| a += 1)` through the trampoline, threading the captured
counter state from call to call exactly as the VM does (the counter block
lives in VM-owned memory and is handed to every call through the same
upvalue). Mirrors the `closures_extern_access` test. -/
def incWrapperIter : Nat → Int → Int
  | 0, z => z
  | n + 1, z =>
    incWrapperIter n
      (wrapper decodeUnit (fun (z : Int) (_ : Unit) => (z + 1, ())) pushUnit z []).1

/-- Decoding an argument stack of `k` well-typed integer slots succeeds
and yields exactly those integers, in order. -/
theorem decodeInts_map_num (xs : List Int) :
    decodeInts xs.length (xs.map LuaValue.num) = some xs := by
  induction xs with
  | nil => rfl
  | cons x xs ih => simp [decodeInts, readInt, ih]

/-- A tuple each of whose components occupies one stack slot pushes
exactly its component list, in declaration order. -/
theorem pushTupleOfOnes_eq (vs : List LuaValue) : pushTupleOfOnes vs = some vs := by
  induction vs with
  | nil => rfl
  | cons v vs ih => simp [pushTupleOfOnes, pushTuple] at ih ⊢; simp [ih]

/-- C1: for every supported arity `k` (0 through 10), invoking a
registered closure of arity `k` from the VM with `k` arguments of the
correct types runs the trampoline to a normal return carrying exactly the
value of the closure applied directly to those arguments; in particular
the registered `add(a, b) = a + b` invoked with the arguments `3, 7`
returns `10`. -/
theorem registered_closure_roundtrip :
    (∀ (k : Nat), k ≤ 10 → ∀ {Z : Type} (f : List Int → Int) (xs : List Int) (z : Z),
      xs.length = k →
      wrapper (decodeInts k) (fun z args => (z, f args)) encodeInt z (xs.map .num)
        = (z, .returned [.num (f xs)])) ∧
    wrapper decodeInt2 (fun (z : Unit) p => (z, p.1 + p.2)) encodeInt () [.num 3, .num 7]
      = ((), .returned [.num 10]) := by
  constructor
  · intro k _hk Z f xs z hlen
    subst hlen
    unfold wrapper
    rw [decodeInts_map_num]
    rfl
  · rfl

/-- Witness for C1 at arity 2: `add` registered as a closure summing its
argument list, called with the well-typed stack `[3, 7]`, returns `10`. -/
theorem registered_closure_roundtrip_witness :
    wrapper (decodeInts 2) (fun (z : Unit) args => (z, args.foldl (· + ·) 0)) encodeInt ()
        ([(3 : Int), 7].map .num)
      = ((), .returned [.num 10]) :=
  registered_closure_roundtrip.1 2 (by decide) _ [3, 7] () rfl

/-- C2: whenever decoding the argument tuple fails, the trampoline raises
the VM-level error carrying exactly the message
"wrong parameter types for callback function" (the `thrown` outcome, which
never returns normally), and the wrapped closure is never executed: the
result holds for every closure body and the captured state comes back
unchanged, so no side effect of the closure is observed. -/
theorem decode_failure_fails_fast {Z P R : Type}
    (decode : List LuaValue → Option P) (args : List LuaValue)
    (hdec : decode args = none)
    (callMut : Z → P → Z × R) (encode : R → Option (List LuaValue)) (z : Z) :
    wrapper decode callMut encode z args
      = (z, .thrown "wrong parameter types for callback function") := by
  unfold wrapper
  rw [hdec]

/-- Witness for C2: `add` called with the ill-typed stack `[3, "hello"]`
throws the fixed message and the side-effect counter captured at `0`
stays `0`. -/
theorem decode_failure_fails_fast_witness :
    wrapper decodeInt2 (fun (z : Int) (p : Int × Int) => (z + 1, p.1 + p.2)) encodeInt 0
        [.num 3, .str "hello"]
      = (0, .thrown "wrong parameter types for callback function") :=
  decode_failure_fails_fast decodeInt2 [.num 3, .str "hello"] rfl _ encodeInt 0

/-- C3: a closure-reported failure with message `m` is pushed as exactly
two values in order — nil, then the display form of `m` — and the
trampoline delivers them as a normal return (`returned`), not as a raised
VM error; in particular `always_fails` returning
`Err("oops, problem")` yields the return values `nil` and
`"oops, problem"` with nothing thrown. -/
theorem result_err_two_value_return :
    (∀ {T E : Type} (pushOk : T → Option (List LuaValue)) (display : E → String) (e : E),
      pushResultToLua pushOk display (.Err e) = some [.nil, .str (display e)]) ∧
    wrapper decodeUnit
        (fun (z : Unit) (_ : Unit) => (z, (RsResult.Err "oops, problem" : RsResult Int String)))
        (pushResultToLua encodeInt id) () []
      = ((), .returned [.nil, .str "oops, problem"]) := by
  exact ⟨fun _ _ _ => rfl, rfl⟩

/-- C4 (failing-input evaluation): the finalizer is attached via
`lua_setmetatable(-2)` only after the `"__gc"` table is pushed, while the
userdata block exists only when `size_of::<Z>() != 0`.  For a zero-sized
captured state that still needs drop (a ZST with a `Drop` impl), the push
never allocates a block, and the `"__gc"` metatable lands on the unrelated
value that happened to be on top of the stack (`foreign true`) — the
callable value itself gets no finalizer — while on an empty stack the
`-2` index is invalid (`none`).  For contrast, a non-zero-sized capture
needing drop does get the finalizer on its block (`some (8, true)` in the
upvalue), and a capture not needing drop gets none. -/
theorem finalizer_missing_for_zero_sized_drop :
    pushFunctionToLua 0 true [.foreign false]
      = some ⟨[.cclosure 0 none, .foreign true], [], 0, 1⟩ ∧
    pushFunctionToLua 0 true [] = none ∧
    pushFunctionToLua 8 true [.foreign false]
      = some ⟨[.cclosure 1 (some (8, true)), .foreign false], [8], 1, 1⟩ ∧
    pushFunctionToLua 8 false [.foreign false]
      = some ⟨[.cclosure 1 (some (8, false)), .foreign false], [8], 1, 1⟩ := by
  refine ⟨rfl, rfl, rfl, rfl⟩

/-- C5: pushing a closure with zero-sized captured state allocates no
captured-state block and hands `lua_pushcclosure` zero upvalues, and the
trampoline then uses the fixed sentinel (`NonNull::dangling()`, non-null
by construction) instead of reading the upvalue slot; a non-zero-sized
capture allocates exactly one block, sized exactly to the captured state,
and the trampoline reads upvalue slot 1. -/
theorem zero_sized_capture_no_alloc :
    (∀ (needsDrop : Bool) (stack : List StackVal) (r : PushResult),
      pushFunctionToLua 0 needsDrop stack = some r →
      r.allocs = [] ∧ r.nUpvalues = 0) ∧
    trampolineDataSource 0 = .sentinel ∧
    (∀ (size : Nat) (needsDrop : Bool) (stack : List StackVal) (r : PushResult),
      size ≠ 0 → pushFunctionToLua size needsDrop stack = some r →
      r.allocs = [size] ∧ trampolineDataSource size = .upvalueSlot 1) := by
  refine ⟨?_, rfl, ?_⟩
  · intro needsDrop stack r h
    cases needsDrop with
    | false =>
      simp [pushFunctionToLua] at h
      simp [← h]
    | true =>
      cases stack with
      | nil => simp [pushFunctionToLua] at h
      | cons top rest =>
        simp [pushFunctionToLua] at h
        simp [← h]
  · intro size needsDrop stack r hsz h
    cases needsDrop with
    | false =>
      simp [pushFunctionToLua, hsz] at h
      simp [← h, trampolineDataSource, hsz]
    | true =>
      simp [pushFunctionToLua, hsz] at h
      simp [← h, trampolineDataSource, hsz]

/-- Witness for C5: a zero-sized capture pushed over the empty stack
allocates nothing and attaches no upvalue; a 4-byte capture allocates one
4-byte block and the trampoline reads upvalue slot 1. -/
theorem zero_sized_capture_no_alloc_witness :
    (PushResult.allocs ⟨[.cclosure 0 none], [], 0, 1⟩ = [] ∧
      PushResult.nUpvalues ⟨[.cclosure 0 none], [], 0, 1⟩ = 0) ∧
    (PushResult.allocs ⟨[.cclosure 1 (some (4, false))], [4], 1, 1⟩ = [4] ∧
      trampolineDataSource 4 = .upvalueSlot 1) :=
  ⟨zero_sized_capture_no_alloc.1 false [] _ rfl,
    zero_sized_capture_no_alloc.2.2 4 false [] _ (by decide) rfl⟩

/-- C6: when decoding succeeded and the closure has returned, a failing
return-value push makes the trampoline hit the `panic!()` branch (`fatal`
outcome) rather than return any value to the VM; and for any return type
whose push is infallible — the encodability contract — the fatal outcome
is unreachable. -/
theorem encode_failure_is_fatal :
    (∀ {Z P R : Type} (decode : List LuaValue → Option P) (callMut : Z → P → Z × R)
      (encode : R → Option (List LuaValue)) (z : Z) (args : List LuaValue) (p : P),
      decode args = some p → encode (callMut z p).2 = none →
      wrapper decode callMut encode z args = ((callMut z p).1, .fatal)) ∧
    (∀ {Z P R : Type} (decode : List LuaValue → Option P) (callMut : Z → P → Z × R)
      (encode : R → Option (List LuaValue)) (z : Z) (args : List LuaValue),
      (∀ ret, encode ret ≠ none) →
      (wrapper decode callMut encode z args).2 ≠ .fatal) := by
  constructor
  · intro Z P R decode callMut encode z args p hdec henc
    unfold wrapper
    rw [hdec]
    simp only [henc]
  · intro Z P R decode callMut encode z args hinf
    unfold wrapper
    cases hdec : decode args with
    | none => simp
    | some p =>
      cases henc : encode (callMut z p).2 with
      | none => exact absurd henc (hinf _)
      | some vals => simp [henc]

/-- Witness for C6: with a push that always fails the trampoline is fatal
on a decoded empty argument tuple; with the infallible integer push it
never is. -/
theorem encode_failure_is_fatal_witness :
    wrapper decodeUnit (fun (z : Unit) (_ : Unit) => (z, (0 : Int))) (fun _ => none) () []
      = ((), .fatal) ∧
    (wrapper decodeUnit (fun (z : Unit) (_ : Unit) => (z, (0 : Int))) encodeInt () []).2
      ≠ .fatal :=
  ⟨encode_failure_is_fatal.1 decodeUnit _ _ () [] () rfl rfl,
    encode_failure_is_fatal.2 decodeUnit _ encodeInt () []
      (fun ret => by simp [encodeInt])⟩

/-- C7: a closure returning a tuple of arity `m` (each component occupying
one stack slot) produces, on a successful invocation, exactly the `m`
component values on the stack in declaration order, and the trampoline
reports `m` as its number of return values. -/
theorem tuple_return_arity :
    (∀ (vs : List LuaValue), pushTupleOfOnes vs = some vs) ∧
    (∀ (Z : Type) (z : Z) (vs : List LuaValue),
      wrapper decodeUnit (fun z (_ : Unit) => (z, vs)) pushTupleOfOnes z []
        = (z, .returned vs) ∧
      reportedReturnCount
          (wrapper decodeUnit (fun z (_ : Unit) => (z, vs)) pushTupleOfOnes z []).2
        = some vs.length) := by
  refine ⟨pushTupleOfOnes_eq, ?_⟩
  intro Z z vs
  have h : wrapper decodeUnit (fun z (_ : Unit) => (z, vs)) pushTupleOfOnes z []
      = (z, .returned vs) := by
    unfold wrapper
    simp [decodeUnit, pushTupleOfOnes_eq]
  exact ⟨h, by rw [h]; rfl⟩

/-- C8: the captured mutable state observed by a registered closure
accumulates across invocations — after any successful call the stored
state is exactly the state the closure body produced, never a reset or a
copy — and the counter-incrementing closure of `closures_extern_access`,
invoked `n` times through the trampoline, raises the counter by exactly
`n`. -/
theorem mutable_state_accumulates :
    (∀ {Z P R : Type} (decode : List LuaValue → Option P) (callMut : Z → P → Z × R)
      (encode : R → Option (List LuaValue)) (z : Z) (args : List LuaValue) (p : P),
      decode args = some p →
      (wrapper decode callMut encode z args).1 = (callMut z p).1) ∧
    (∀ (n : Nat) (z : Int), incWrapperIter n z = z + n) := by
  constructor
  · intro Z P R decode callMut encode z args p hdec
    unfold wrapper
    rw [hdec]
    cases henc : encode (callMut z p).2 <;> simp [henc]
  · intro n
    induction n with
    | zero => intro z; simp [incWrapperIter]
    | succ n ih =>
      intro z
      have : incWrapperIter (n + 1) z = incWrapperIter n (z + 1) := rfl
      rw [this, ih (z + 1)]
      push_cast
      ring

/-- Witness for C8: one trampoline call moves the captured counter from 5
to 6, and fifteen calls (the `closures_extern_access` scenario) move it
from 5 to 20. -/
theorem mutable_state_accumulates_witness :
    (wrapper decodeUnit (fun (z : Int) (_ : Unit) => (z + 1, ())) pushUnit 5 []).1 = 6 ∧
    incWrapperIter 15 5 = 20 :=
  ⟨mutable_state_accumulates.1 decodeUnit _ pushUnit 5 [] () rfl,
    mutable_state_accumulates.2 15 5⟩

/-- C9: within the closed world of push impls, a `Result` value is
pushable only into the `&mut InsideCallback` context — the context created
at trampoline entry and living exactly for that invocation — so no
operation can push a `Result` outside a callback (for instance as an
ordinary global variable, which is a push into the `anyLua` context). -/
theorem result_push_requires_callback :
    ∀ (t e : ValTy) (c : PushCtx),
      HasPushImpl (.result t e) c → c = .insideCallback := by
  intro t e c h
  cases h
  rfl

/-- Witness for C9: `Result<i32, String>` is pushable inside a callback,
and the theorem applied to that impl confirms the context is the callback
context. -/
theorem result_push_requires_callback_witness :
    HasPushImpl (.result .int .str) .insideCallback ∧
    PushCtx.insideCallback = PushCtx.insideCallback :=
  ⟨.result (.int .insideCallback),
    result_push_requires_callback .int .str .insideCallback (.result (.int .insideCallback))⟩

/-- C10: every defined execution of the `Function` push leaves exactly one
new value on the VM stack — the native closure, on top — whatever the
captured size and whether or not a finalizer metatable was attached; the
reported `PushGuard` size is 1 and the push error type (`Void`, modelled
by `Empty`) is uninhabited, so the push cannot fail with a push error. -/
theorem push_function_single_value :
    (∀ (size : Nat) (needsDrop : Bool) (stack : List StackVal) (r : PushResult),
      pushFunctionToLua size needsDrop stack = some r →
      r.stack.length = stack.length + 1 ∧
      (∃ n u, r.stack.head? = some (.cclosure n u)) ∧
      r.guard = 1) ∧
    (FunctionPushErr → False) := by
  refine ⟨?_, fun e => e.elim⟩
  intro size needsDrop stack r h
  by_cases hs : size = 0
  · subst hs
    cases needsDrop with
    | false =>
      simp [pushFunctionToLua] at h
      simp [← h]
    | true =>
      cases stack with
      | nil => simp [pushFunctionToLua] at h
      | cons top rest =>
        simp [pushFunctionToLua] at h
        simp [← h]
  · cases needsDrop with
    | false =>
      simp [pushFunctionToLua, hs] at h
      simp [← h]
    | true =>
      simp [pushFunctionToLua, hs] at h
      simp [← h]

/-- Witness for C10: pushing an 8-byte capture needing drop over the empty
stack yields one new value, the native closure, with guard size 1. -/
theorem push_function_single_value_witness :
    (PushResult.stack ⟨[.cclosure 1 (some (8, true))], [8], 1, 1⟩).length = 0 + 1 ∧
    (∃ n u, (PushResult.stack ⟨[.cclosure 1 (some (8, true))], [8], 1, 1⟩).head?
      = some (.cclosure n u)) ∧
    PushResult.guard ⟨[.cclosure 1 (some (8, true))], [8], 1, 1⟩ = 1 :=
  push_function_single_value.1 8 true [] _ rfl

end Hlua
